import Mathlib

/-!
Shallow embedding of the LiquidAlpha signal core and proofs about it.

Sources embedded:
 - `server/src/indicators.ts` — the pure indicator library (`ema`, `macd`, `rsi`, `atr`).
 - `server/src/technical-analysis.ts` — the signal-generation pass (`generateSignals`).
 - `server/src/hyperliquid-real.ts` — the retrying RPC wrapper (`postJSON`).
 - `server/src/server.ts` — the WebSocket fan-out helper (`broadcast`).

Modelling conventions: JavaScript numbers are modelled as exact rationals
(`ℚ`); an out-of-range array read (`undefined` in JS, producing `NaN` under
arithmetic) is modelled by `List.getD _ 0`, and the `NaN` placeholder entries
pushed by `rsi`, as well as the holes of the sparse `atr` output array, are
modelled as the junk value `0`.  Every theorem about concrete values only
looks at positions where the JS code computes a real (non-`NaN`) number, so
the junk stand-ins never influence a claimed value; they only carry the
array-length behaviour, which they reproduce exactly.
-/

namespace LiquidAlpha

/-- The tail of the EMA loop of `indicators.ts` (`ema`, lines 27-32): given the
smoothing factor `k` and the running value `prev`, emit
`v * k + prev * (1 - k)` for each remaining sample. -/
def emaGo (k : ℚ) (prev : ℚ) : List ℚ → List ℚ
  | [] => []
  | v :: rest =>
    let nv := v * k + prev * (1 - k)
    nv :: emaGo k nv rest

/-- `ema(series, period)` from `indicators.ts` lines 22-34.  When
`period ≤ 1` the input is returned (copied).  Otherwise the output is seeded
with `series[0]` and smoothed with `k = 2/(period+1)`.  NOTE: the JS code
pushes `series[0]` unconditionally, so an empty input with `period > 1`
yields a one-element array holding `undefined`; we model that junk seed as
`List.headD series 0`. -/
def ema (series : List ℚ) (period : ℕ) : List ℚ :=
  if period ≤ 1 then series
  else
    let k : ℚ := 2 / ((period : ℚ) + 1)
    let prev := series.headD 0
    prev :: emaGo k prev series.tail

/-- Result record of `macd` (`indicators.ts` line 55: `{ macd, signal, hist }`). -/
structure MacdResult where
  macd : List ℚ
  signal : List ℚ
  hist : List ℚ
deriving DecidableEq

/-- `macd(series, fast, slow, signal)` from `indicators.ts` lines 54-69.
Returns empty arrays when `series.length < slow + signal + 5`; otherwise the
MACD line is the elementwise difference of the fast and slow EMAs (with the
JS `?? 0` fallback modelled by `getD _ 0`), the signal line is an EMA of the
MACD line, and the histogram is their elementwise difference. -/
def macd (series : List ℚ) (fast slow signal : ℕ) : MacdResult :=
  if series.length < slow + signal + 5 then ⟨[], [], []⟩
  else
    let emaFast := ema series fast
    let emaSlow := ema series slow
    let macdLine := (List.range series.length).map
      (fun i => emaFast.getD i 0 - emaSlow.getD i 0)
    let signalLine := ema macdLine signal
    let hist := (List.range macdLine.length).map
      (fun i => macdLine.getD i 0 - signalLine.getD i 0)
    ⟨macdLine, signalLine, hist⟩

/-- The Wilder-smoothing loop of `rsi` (`indicators.ts` lines 97-105), one
output entry per remaining price delta.  `avgGain`/`avgLoss` are the running
averages; `rs` is `0` when `avgLoss` is `0` (the JS guard on line 103). -/
def rsiGo (length : ℕ) : List ℚ → ℚ → ℚ → List ℚ
  | [], _, _ => []
  | d :: rest, avgGain, avgLoss =>
    let gain := if 0 < d then d else 0
    let loss := if d < 0 then -d else 0
    let ag := (avgGain * ((length : ℚ) - 1) + gain) / (length : ℚ)
    let al := (avgLoss * ((length : ℚ) - 1) + loss) / (length : ℚ)
    let rs := if al = 0 then 0 else ag / al
    (100 - 100 / (1 + rs)) :: rsiGo length rest ag al

/-- `rsi(series, length)` from `indicators.ts` lines 80-107.  The seed loop
pushes `length` `NaN` placeholders (modelled as `0`) while summing the gains
and losses of the first `length` deltas; the entry at index `length` is the
initial RSI with `rs = 0` when `avgLoss = 0`; the remaining entries come from
the Wilder-smoothing loop.  Deltas the JS code reads past the end of the
series (producing `NaN`) are modelled as `0`. -/
def rsi (series : List ℚ) (length : ℕ) : List ℚ :=
  let deltas := List.zipWith (fun a b => a - b) series.tail series
  let gainSum := ((List.range length).map (fun i =>
    let d := deltas.getD i 0
    if 0 ≤ d then d else 0)).sum
  let lossSum := ((List.range length).map (fun i =>
    let d := deltas.getD i 0
    if 0 ≤ d then 0 else -d)).sum
  let avgGain := gainSum / (length : ℚ)
  let avgLoss := lossSum / (length : ℚ)
  let rs := if avgLoss = 0 then 0 else avgGain / avgLoss
  let first := 100 - 100 / (1 + rs)
  List.replicate length (0 : ℚ) ++ first :: rsiGo length (deltas.drop length) avgGain avgLoss

/-- The true-range series of `atr` (`indicators.ts` lines 124-134):
`high[0]-low[0]` at index 0, otherwise the maximum of `high-low`,
`|high-prevClose|` and `|low-prevClose|`. -/
def trueRanges (high low close : List ℚ) : List ℚ :=
  (List.range high.length).map (fun i =>
    if i = 0 then high.getD 0 0 - low.getD 0 0
    else
      max (high.getD i 0 - low.getD i 0)
        (max |high.getD i 0 - close.getD (i - 1) 0| |low.getD i 0 - close.getD (i - 1) 0|))

/-- The Wilder-smoothing loop of `atr` (`indicators.ts` lines 141-143):
`out[i] = (out[i-1]*(period-1) + tr[i]) / period`. -/
def atrGo (period : ℕ) (prev : ℚ) : List ℚ → List ℚ
  | [] => []
  | t :: rest =>
    let v := (prev * ((period : ℚ) - 1) + t) / (period : ℚ)
    v :: atrGo period v rest

/-- `atr(high, low, close, period)` from `indicators.ts` lines 123-145.  The
JS output is a sparse array: indices below `period-1` are holes (modelled as
`0`), index `period-1` is the simple average of the first `period` true
ranges, and later indices are Wilder-smoothed.  All call sites use
`period = 14`; the model matches the JS array for every `period ≥ 1`. -/
def atr (high low close : List ℚ) (period : ℕ) : List ℚ :=
  let tr := trueRanges high low close
  let firstAtr := (tr.take period).sum / (period : ℚ)
  List.replicate (period - 1) (0 : ℚ) ++ firstAtr :: atrGo period firstAtr (tr.drop period)

/-- Direction of an emitted signal (`signalType` strings `'LONG'`/`'SHORT'`
in `technical-analysis.ts` line 79). -/
inductive SignalType where
  | LONG
  | SHORT
deriving DecidableEq

/-- The row inserted into the `signals` table (`technical-analysis.ts`
lines 81-86).  `createdAt` is filled by the database default and is not part
of the computed value. -/
structure Signal where
  asset : String
  signalType : SignalType
  confidence : ℕ
  active : Bool
deriving DecidableEq

/-- `xs[xs.length - 1]` as used throughout `generateSignals`
(`technical-analysis.ts` lines 44-49); an empty array gives `undefined`
(junk `0` in the model). -/
def latestOf (xs : List ℚ) : ℚ := xs.getD (xs.length - 1) 0

/-- Trend sub-signal (`technical-analysis.ts` line 46):
latest `ema50 > ema200`. -/
def trendBullish (closes : List ℚ) : Bool :=
  decide (latestOf (ema closes 200) < latestOf (ema closes 50))

/-- Momentum sub-signal (`technical-analysis.ts` line 48): latest MACD
histogram value `> 0`. -/
def momentumBullish (closes : List ℚ) : Bool :=
  decide (0 < latestOf (macd closes 12 26 9).hist)

/-- `bullish = trendBullish && momentumBullish`
(`technical-analysis.ts` line 64). -/
def bullishOf (closes : List ℚ) : Bool :=
  trendBullish closes && momentumBullish closes

/-- `bearish = !trendBullish && !momentumBullish`
(`technical-analysis.ts` line 65). -/
def bearishOf (closes : List ℚ) : Bool :=
  !trendBullish closes && !momentumBullish closes

/-- RSI regime (`technical-analysis.ts` lines 50-63): `< 30` is bullish,
`> 70` is bearish, the neutral band inherits the trend direction.  The JS
`isNaN(latestRsi)` branch (which forces `false`) is unreachable in the
rational model: for the ≥ 210-sample histories the engine feeds in, the
latest RSI is a real number. -/
def rsiBullish (closes : List ℚ) : Bool :=
  let latestRsi := latestOf (rsi closes 14)
  if latestRsi < 30 then true
  else if 70 < latestRsi then false
  else trendBullish closes

/-- First confidence bonus (`technical-analysis.ts` line 72):
`(bullish || bearish) && Math.abs(latestMacdHist) > 0`. -/
def macdBonusApplies (closes : List ℚ) : Bool :=
  (bullishOf closes || bearishOf closes)
    && decide (0 < |latestOf (macd closes 12 26 9).hist|)

/-- Second confidence bonus (`technical-analysis.ts` line 73):
relative EMA gap `|ema50 - ema200| / ema200 > 0.005`. -/
def gapBonusApplies (closes : List ℚ) : Bool :=
  decide ((5 / 1000 : ℚ) <
    |latestOf (ema closes 50) - latestOf (ema closes 200)| / latestOf (ema closes 200))

/-- Third confidence bonus (`technical-analysis.ts` line 74):
`rsiBullish === bullish`. -/
def rsiBonusApplies (closes : List ℚ) : Bool :=
  rsiBullish closes == bullishOf closes

/-- Confidence score (`technical-analysis.ts` lines 70-76): start at 60, add
10 per confirming indicator, clamp at 100. -/
def confidenceOf (closes : List ℚ) : ℕ :=
  let c := 60 + (if macdBonusApplies closes then 10 else 0)
    + (if gapBonusApplies closes then 10 else 0)
    + (if rsiBonusApplies closes then 10 else 0)
  if 100 < c then 100 else c

/-- The per-symbol decision part of the `generateSignals` loop body
(`technical-analysis.ts` lines 37-86), taking the ascending closing prices.
Returns `none` when trend and momentum conflict (lines 66-70), otherwise the
Signal row inserted on lines 81-86. -/
def evaluateSymbol (symbol : String) (closes : List ℚ) : Option Signal :=
  if !bullishOf closes && !bearishOf closes then none
  else
    some { asset := symbol
           signalType := if bullishOf closes then SignalType.LONG else SignalType.SHORT
           confidence := confidenceOf closes
           active := true }

/-- `HISTORY_LIMIT` from `price-history.ts` line 11. -/
def HISTORY_LIMIT : ℕ := 256

/-- The collaborators of one `generateSignals` pass: the symbol list
(`technical-analysis.ts` line 26), the `price_history` rows per symbol in
descending-timestamp order as returned by `getPriceHistory`, and whether the
`signals`-table insert succeeds for a given symbol (the awaited
`db.insert` on line 81, which either resolves or rejects). -/
structure PassEnv where
  symbols : List String
  history : String → List ℚ
  insertOk : String → Bool

/-- The `for (const symbol of symbols)` loop of `generateSignals`
(`technical-analysis.ts` lines 27-87).  Returns the symbols whose history
was fetched and examined, the signals successfully inserted, and whether the
pass ran to completion: an insufficient history (line 31) or a
trend/momentum conflict (line 66) is a logged per-symbol skip, but a
rejected insert (line 81 — there is no try/catch inside the loop) propagates
out of `generateSignals`, so the loop stops and the remaining symbols are
never evaluated (`false` in the last component). -/
def generateSignalsFrom (env : PassEnv) :
    List String → List String → List Signal → List String × List Signal × Bool
  | [], evaluated, emitted => (evaluated, emitted, true)
  | symbol :: rest, evaluated, emitted =>
    let history := (env.history symbol).take HISTORY_LIMIT
    let evaluated := evaluated ++ [symbol]
    if history.length < 210 then
      generateSignalsFrom env rest evaluated emitted
    else
      match evaluateSymbol symbol history.reverse with
      | none => generateSignalsFrom env rest evaluated emitted
      | some sig =>
        if env.insertOk symbol then
          generateSignalsFrom env rest evaluated (emitted ++ [sig])
        else
          (evaluated, emitted, false)

/-- One whole `generateSignals()` call (`technical-analysis.ts`
lines 25-88), starting from the fixed symbol list in the environment. -/
def generateSignals (env : PassEnv) : List String × List Signal × Bool :=
  generateSignalsFrom env env.symbols [] []

/-- One possible outcome of a single `fetch` inside `postJSON`
(`hyperliquid-real.ts` lines 53-62): a 2xx response whose body parses, a
non-ok HTTP status, or a thrown transport/timeout error. -/
inductive FetchOutcome where
  | ok
  | httpError (status : ℕ)
  | thrown
deriving DecidableEq

/-- How one `postJSON` call ends: returns the parsed body, throws the
`HTTP status` error, or rethrows the transport error. -/
inductive RpcResult where
  | value
  | httpFailure (status : ℕ)
  | raised
deriving DecidableEq

/-- The backoff delay computed on lines 68 and 80 of `hyperliquid-real.ts`:
`Math.min(300 * Math.pow(2, attempt), 30000)` — evaluated only after
`attempt` has been incremented. -/
def backoffDelay (attempt : ℕ) : ℕ := min (300 * 2 ^ attempt) 30000

/-- The `while (true)` retry loop of `postJSON` (`hyperliquid-real.ts`
lines 50-86), driven by a script of fetch outcomes and the `attempt`
counter (initially 0).  A 5xx/429 status with `attempt < retries` retries
after `backoffDelay (attempt+1)` (lines 66-70); any other non-ok status is
thrown as an `HTTP ...` error (line 73) which the surrounding `catch` also
retries while `attempt < retries` (lines 77-82); a thrown transport error is
likewise retried or rethrown.  Returns the final result together with the
list of backoff delays actually waited, in order. -/
def postJSONGo (retries : ℕ) : List FetchOutcome → ℕ → RpcResult × List ℕ
  | [], _ => (RpcResult.raised, [])
  | outcome :: rest, attempt =>
    match outcome with
    | FetchOutcome.ok => (RpcResult.value, [])
    | FetchOutcome.httpError status =>
      if (500 ≤ status ∨ status = 429) ∧ attempt < retries then
        let next := postJSONGo retries rest (attempt + 1)
        (next.1, backoffDelay (attempt + 1) :: next.2)
      else if attempt < retries then
        let next := postJSONGo retries rest (attempt + 1)
        (next.1, backoffDelay (attempt + 1) :: next.2)
      else (RpcResult.httpFailure status, [])
    | FetchOutcome.thrown =>
      if attempt < retries then
        let next := postJSONGo retries rest (attempt + 1)
        (next.1, backoffDelay (attempt + 1) :: next.2)
      else (RpcResult.raised, [])

/-- `postJSON` (`hyperliquid-real.ts` lines 48-87) with its default
`retries = 2` made explicit; `attempt` starts at 0. -/
def postJSON (outcomes : List FetchOutcome) (retries : ℕ) : RpcResult × List ℕ :=
  postJSONGo retries outcomes 0

/-- A WebSocket client as seen by `broadcast` (`server.ts` lines 68-79):
whether `readyState === WebSocket.OPEN` at call time, and whether its
`ws.send` throws for this message. -/
structure Client where
  id : ℕ
  isOpen : Bool
  sendFails : Bool

/-- Stand-in for `JSON.stringify({ event, payload })`
(`server.ts` line 69), computed once per `broadcast` call. -/
def serializeEnvelope (event payload : String) : String :=
  "envelope(" ++ event ++ "," ++ payload ++ ")"

/-- The subscriber loop of `broadcast` (`server.ts` lines 70-78): skip
clients that are not open; for open clients attempt `ws.send(message)`,
catching and ignoring a throw so the loop continues.  Each emitted triple
records the client id, the message it was sent, and whether the send
succeeded (`false` = the send threw and was ignored). -/
def broadcastGo (message : String) : List Client → List (ℕ × String × Bool)
  | [] => []
  | ws :: rest =>
    if ws.isOpen then (ws.id, message, !ws.sendFails) :: broadcastGo message rest
    else broadcastGo message rest

/-- `broadcast(event, payload)` from `server.ts` lines 68-79: serialize the
envelope once, then deliver it to every currently-open client. -/
def broadcast (event payload : String) (clients : List Client) : List (ℕ × String × Bool) :=
  let message := serializeEnvelope event payload
  broadcastGo message clients

/-- A 210-sample ascending closing-price series: 209 flat bars at 100
followed by a jump to 150.  Long enough for the ≥ 210-bar requirement of
`generateSignals`, and flat-then-jump so that every indicator value stays a
small rational. -/
def closes210 : List ℚ := List.replicate 209 (100 : ℚ) ++ [150]

/-- A strictly increasing 16-sample series `0, 1, …, 15`: every delta is
`+1`, so the average loss over any lookback is zero. -/
def incSeries : List ℚ := (List.range 16).map (fun i => (i : ℚ))

/-- A two-symbol pass environment in which both symbols have the same
sufficient bullish history and the `signals`-table insert rejects for
symbol `A` but would succeed for symbol `B`. -/
def envAbort : PassEnv :=
  { symbols := ["A", "B"]
    history := fun _ => 150 :: List.replicate 209 (100 : ℚ)
    insertOk := fun s => s == "B" }

/- ### Helper lemmas -/

set_option maxRecDepth 100000 in
theorem trendMomentum210 : trendBullish closes210 = true ∧ momentumBullish closes210 = true := by
  with_unfolding_all decide

set_option maxRecDepth 100000 in
theorem bonuses210 : macdBonusApplies closes210 = true ∧ gapBonusApplies closes210 = true ∧
    rsiBonusApplies closes210 = true := by
  with_unfolding_all decide

theorem bullish210 : bullishOf closes210 = true ∧ bearishOf closes210 = false := by
  unfold bullishOf bearishOf
  rw [trendMomentum210.1, trendMomentum210.2]
  exact ⟨rfl, rfl⟩

theorem confidence210 : confidenceOf closes210 = 90 := by
  unfold confidenceOf
  rw [bonuses210.1, bonuses210.2.1, bonuses210.2.2]
  rfl

theorem eval210 (s : String) :
    evaluateSymbol s closes210 = some ⟨s, SignalType.LONG, 90, true⟩ := by
  unfold evaluateSymbol
  rw [bullish210.1, bullish210.2, confidence210]
  rfl

theorem rsiGo_length (length : ℕ) (ds : List ℚ) (ag al : ℚ) :
    (rsiGo length ds ag al).length = ds.length := by
  induction ds generalizing ag al with
  | nil => rfl
  | cons d rest ih => simp [rsiGo, ih]

theorem broadcastGo_eq (message : String) (clients : List Client) :
    broadcastGo message clients =
      (clients.filter (fun ws => ws.isOpen)).map
        (fun ws => (ws.id, message, !ws.sendFails)) := by
  induction clients with
  | nil => rfl
  | cons ws rest ih =>
    cases hw : ws.isOpen <;> simp [broadcastGo, hw, ih, List.filter_cons]

theorem postJSONGo_delays (outcomes : List FetchOutcome) :
    ∀ (retries attempt k d : ℕ),
      (postJSONGo retries outcomes attempt).2[k]? = some d →
      d = backoffDelay (attempt + 1 + k) := by
  induction outcomes with
  | nil => intro retries attempt k d h; simp [postJSONGo] at h
  | cons o rest ih =>
    intro retries attempt k d h
    cases o with
    | ok => simp [postJSONGo] at h
    | httpError status =>
      rw [postJSONGo] at h
      split_ifs at h with h1 h2
      · cases k with
        | zero =>
          simp at h
          exact h.symm
        | succ k =>
          simp at h
          have hk := ih retries (attempt + 1) k d h
          rw [hk]; congr 1; omega
      · cases k with
        | zero =>
          simp at h
          exact h.symm
        | succ k =>
          simp at h
          have hk := ih retries (attempt + 1) k d h
          rw [hk]; congr 1; omega
      · simp at h
    | thrown =>
      rw [postJSONGo] at h
      split_ifs at h with h1
      · cases k with
        | zero =>
          simp at h
          exact h.symm
        | succ k =>
          simp at h
          have hk := ih retries (attempt + 1) k d h
          rw [hk]; congr 1; omega
      · simp at h

/- ### Claim theorems -/

/-- C5 counterexample: the first retry of `postJSON` (one thrown fetch, then
success, default `retries = 2`) waits 600 time units, not the base delay
300 the claim asserts. -/
theorem backoff_first_delay_counterexample :
    (postJSON [FetchOutcome.thrown, FetchOutcome.ok] 2).2[0]? = some 600 ∧
    (postJSON [FetchOutcome.thrown, FetchOutcome.ok] 2).2[0]? ≠ some 300 := by
  decide

/-- C5 (amended): the backoff delay before retry attempt `k`, counting the
first retry as `k = 0` in the delay list, equals `min(300 * 2^(k+1), 30000)`
— equivalently, with retries numbered from 1, the `k`-th retry waits
`min(300 * 2^k, 30000)`, so the first retry waits 600 (double the base 300)
and each later retry doubles the wait up to the 30000 cap. -/
theorem backoff_delay_formula (outcomes : List FetchOutcome) (retries k d : ℕ)
    (h : (postJSON outcomes retries).2[k]? = some d) :
    d = min (300 * 2 ^ (k + 1)) 30000 := by
  have h2 := postJSONGo_delays outcomes retries 0 k d h
  have h3 : 0 + 1 + k = k + 1 := by omega
  rw [h3] at h2
  exact h2

/-- C5 witness: with two transport failures then success, the second retry
waits `1200 = min(300 * 2^2, 30000)`. -/
theorem backoff_delay_formula_witness :
    (postJSON [FetchOutcome.thrown, FetchOutcome.thrown, FetchOutcome.ok] 2).2[1]? =
      some 1200 ∧ (1200 : ℕ) = min (300 * 2 ^ (1 + 1)) 30000 := by
  have hg : (postJSON [FetchOutcome.thrown, FetchOutcome.thrown, FetchOutcome.ok] 2).2[1]? =
      some 1200 := by decide
  exact ⟨hg, backoff_delay_formula _ 2 1 1200 hg⟩

/-- C6: `ema` on the empty series with `period = 2` returns a one-element
array (the JS code pushes the undefined seed `series[0]`), so the output is
longer than the empty input — the claimed length preservation fails at the
empty series for `period > 1`. -/
theorem ema_empty_output_length :
    (ema ([] : List ℚ) 2).length = 1 ∧ ([] : List ℚ).length = 0 := by
  constructor <;> rfl

/-- C8: `broadcast` computes the envelope once and attempts delivery to
exactly the clients that are open at call time, in registration order; a
client whose send throws (`sendFails = true`) yields a failed attempt but
every other open client still receives the same serialized message. -/
theorem broadcast_delivers_open (event payload : String) (clients : List Client) :
    broadcast event payload clients =
      (clients.filter (fun ws => ws.isOpen)).map
        (fun ws => (ws.id, serializeEnvelope event payload, !ws.sendFails)) := by
  unfold broadcast
  exact broadcastGo_eq _ clients

theorem emaGo_length (k : ℚ) (l : List ℚ) :
    ∀ prev : ℚ, (emaGo k prev l).length = l.length := by
  induction l with
  | nil => intro prev; rfl
  | cons v rest ih => intro prev; simp [emaGo, ih]

/-- C10 counterexample: `ema` does exceed the input length — on the empty
series with `period = 2` it returns one element (the pushed undefined seed)
for a zero-element input, so the claim's clause that `ema` never exceeds
the input length is false. -/
theorem ema_exceeds_input_counterexample :
    (ema ([] : List ℚ) 2).length = 1 ∧
    ¬ (ema ([] : List ℚ) 2).length ≤ ([] : List ℚ).length := by
  decide

/-- C10 (amended): `rsi(series, length)` returns `max (series.length)
(length + 1)` entries — the seed loop always pushes `length` sentinel
entries and the initial-RSI write at index `length` extends the array, so
inputs shorter than `length + 1` samples (including the empty series) yield
`length + 1` entries, longer than the input.  `macd` never exceeds the input
length, and `ema` preserves the input length for every nonempty series (and
for `period ≤ 1`), but exceeds it at the empty series with `period > 1`,
where it returns one element (the C6 divergence). -/
theorem rsi_output_length_amended (series : List ℚ) (length fast slow signal period : ℕ) :
    (rsi series length).length = max series.length (length + 1) ∧
    (macd series fast slow signal).hist.length ≤ series.length ∧
    (series ≠ [] → (ema series period).length = series.length) ∧
    (ema ([] : List ℚ) period).length ≤ 1 := by
  refine ⟨?_, ?_, ?_, ?_⟩
  · unfold rsi
    rw [List.length_append, List.length_replicate, List.length_cons, rsiGo_length,
      List.length_drop, List.length_zipWith, List.length_tail]
    omega
  · unfold macd
    split_ifs <;> simp
  · intro hne
    unfold ema
    split_ifs
    · rfl
    · cases series with
      | nil => exact absurd rfl hne
      | cons a rest => simp [emaGo_length]
  · unfold ema
    split_ifs <;> simp [emaGo]

/-- C10 witness: instantiating the amended claim at the concrete two-sample
series `[1, 2]` with `length = 14` and `period = 3`: the RSI output has
`max 2 15 = 15` entries, the MACD histogram does not exceed the input
length, `ema` preserves the nonempty input's length, and `ema` of the empty
series has at most one element. -/
theorem rsi_output_length_amended_witness :
    (rsi [(1 : ℚ), 2] 14).length = max 2 15 ∧
    (macd [(1 : ℚ), 2] 12 26 9).hist.length ≤ 2 ∧
    (ema [(1 : ℚ), 2] 3).length = 2 ∧
    (ema ([] : List ℚ) 3).length ≤ 1 := by
  have h := rsi_output_length_amended [(1 : ℚ), 2] 14 12 26 9 3
  exact ⟨h.1, h.2.1, h.2.2.1 (by decide), h.2.2.2⟩

/-- C1: `rsi` on the strictly increasing series `0,1,…,15` (every delta is a
gain, so the average loss is zero) produces the value 0, not 100, at the
first defined output index 14 and at index 15: the `rs = 0` fallback gives
`100 - 100/(1+0) = 0`.  The `getD` default 1 certifies the entries exist. -/
theorem rsi_zeroloss_value :
    (rsi incSeries 14).getD 14 1 = 0 ∧ (rsi incSeries 14).getD 15 1 = 0 ∧
    (rsi incSeries 14).length = 16 := by
  with_unfolding_all decide

theorem confidenceOf_range (closes : List ℚ) :
    60 ≤ confidenceOf closes ∧ confidenceOf closes ≤ 90 := by
  simp only [confidenceOf]
  split_ifs <;> omega

theorem confidenceOf_all_bonuses (closes : List ℚ)
    (h1 : macdBonusApplies closes = true) (h2 : gapBonusApplies closes = true)
    (h3 : rsiBonusApplies closes = true) :
    confidenceOf closes = 90 := by
  simp only [confidenceOf, h1, h2, h3, if_true]
  decide

theorem confidenceOf_gap_rsi (closes : List ℚ)
    (h2 : gapBonusApplies closes = true) (h3 : rsiBonusApplies closes = true) :
    70 ≤ confidenceOf closes := by
  simp only [confidenceOf, h2, h3, if_true]
  split_ifs <;> omega

/-- C9: every emitted Signal's confidence lies in `[60, 90]` (base 60 plus
at most three 10-point bonuses), so the clamp-to-100 branch is unreachable
and confidence 100 is never produced. -/
theorem emitted_confidence_bounds (symbol : String) (closes : List ℚ) (sig : Signal)
    (h : evaluateSymbol symbol closes = some sig) :
    60 ≤ sig.confidence ∧ sig.confidence ≤ 90 ∧ sig.confidence ≠ 100 := by
  unfold evaluateSymbol at h
  split_ifs at h <;>
  · cases h
    dsimp only
    have hb := confidenceOf_range closes
    exact ⟨hb.1, hb.2, by omega⟩

/-- C9 witness: the Signal emitted for the concrete bullish 210-sample
series has confidence 90, inside `[60, 90]` and different from 100. -/
theorem emitted_confidence_bounds_witness :
    60 ≤ Signal.confidence ⟨"BTC", SignalType.LONG, 90, true⟩ ∧
    Signal.confidence ⟨"BTC", SignalType.LONG, 90, true⟩ ≤ 90 ∧
    Signal.confidence ⟨"BTC", SignalType.LONG, 90, true⟩ ≠ 100 :=
  emitted_confidence_bounds "BTC" closes210 _ (eval210 "BTC")

/-- C2 counterexample: on the concrete 210-sample series all three
confidence bonuses apply, yet the emitted Signal's confidence is 90, so it
is false that it equals 100. -/
theorem fullBonus_confidence_counterexample :
    macdBonusApplies closes210 = true ∧ gapBonusApplies closes210 = true ∧
    rsiBonusApplies closes210 = true ∧
    evaluateSymbol "BTC" closes210 = some ⟨"BTC", SignalType.LONG, 90, true⟩ ∧
    ¬ ∃ sig, evaluateSymbol "BTC" closes210 = some sig ∧ sig.confidence = 100 := by
  refine ⟨bonuses210.1, bonuses210.2.1, bonuses210.2.2, eval210 "BTC", ?_⟩
  rintro ⟨sig, hs, hc⟩
  rw [eval210 "BTC"] at hs
  cases hs
  exact absurd hc (by decide)

/-- C2 (amended): whenever a Signal is emitted and all three confidence
bonuses apply, its confidence equals exactly 90 (base 60 plus three 10-point
bonuses — 100 is not reachable); whenever the relative-gap and
RSI-agreement bonuses both apply, the confidence is at least 70. -/
theorem fullBonus_confidence (symbol : String) (closes : List ℚ) (sig : Signal)
    (h : evaluateSymbol symbol closes = some sig) :
    (macdBonusApplies closes = true → gapBonusApplies closes = true →
      rsiBonusApplies closes = true → sig.confidence = 90) ∧
    (gapBonusApplies closes = true → rsiBonusApplies closes = true →
      70 ≤ sig.confidence) := by
  unfold evaluateSymbol at h
  split_ifs at h <;>
  · cases h
    dsimp only
    exact ⟨fun h1 h2 h3 => confidenceOf_all_bonuses closes h1 h2 h3,
      fun h2 h3 => confidenceOf_gap_rsi closes h2 h3⟩

/-- C2 witness: on the concrete 210-sample series all hypotheses hold and
the emitted confidence is exactly 90 and at least 70. -/
theorem fullBonus_confidence_witness :
    Signal.confidence ⟨"BTC", SignalType.LONG, 90, true⟩ = 90 ∧
    70 ≤ Signal.confidence ⟨"BTC", SignalType.LONG, 90, true⟩ :=
  ⟨(fullBonus_confidence "BTC" closes210 _ (eval210 "BTC")).1
      bonuses210.1 bonuses210.2.1 bonuses210.2.2,
    (fullBonus_confidence "BTC" closes210 _ (eval210 "BTC")).2
      bonuses210.2.1 bonuses210.2.2⟩

/-- C4: for a symbol with sufficient history the emitted direction is LONG
iff both the trend sub-signal (latest ema50 > ema200) and the momentum
sub-signal (latest MACD histogram > 0) are bullish, SHORT iff both are
bearish, and no Signal is emitted exactly when the two disagree. -/
theorem direction_iff_subsignals (symbol : String) (closes : List ℚ)
    (hlen : 210 ≤ closes.length) :
    ((evaluateSymbol symbol closes).map Signal.signalType = some SignalType.LONG ↔
      trendBullish closes = true ∧ momentumBullish closes = true) ∧
    ((evaluateSymbol symbol closes).map Signal.signalType = some SignalType.SHORT ↔
      trendBullish closes = false ∧ momentumBullish closes = false) ∧
    (evaluateSymbol symbol closes = none ↔
      trendBullish closes ≠ momentumBullish closes) := by
  unfold evaluateSymbol bullishOf bearishOf
  cases htb : trendBullish closes <;> cases hmb : momentumBullish closes <;> simp

set_option maxRecDepth 100000 in
/-- C4 witness: the concrete 210-sample series has both sub-signals bullish
and the engine emits a LONG signal for it. -/
theorem direction_iff_subsignals_witness :
    (evaluateSymbol "BTC" closes210).map Signal.signalType = some SignalType.LONG :=
  (direction_iff_subsignals "BTC" closes210 (by with_unfolding_all decide)).1.mpr
    ⟨trendMomentum210.1, trendMomentum210.2⟩

set_option maxRecDepth 100000 in
theorem history210_reverse :
    ((envAbort.history "A").take HISTORY_LIMIT).reverse = closes210 := by
  with_unfolding_all decide

set_option maxRecDepth 100000 in
set_option maxHeartbeats 2000000 in
/-- C3 counterexample: in a two-symbol pass where both symbols have
sufficient bullish history and the Signal-store insert rejects for the
first symbol, only the first symbol is evaluated — the later symbol `B` is
in the list but never reached, and the pass ends abnormally. -/
theorem insertFailure_counterexample :
    (generateSignals envAbort).1 = ["A"] ∧ "B" ∉ (generateSignals envAbort).1 ∧
    (generateSignals envAbort).2.2 = false ∧ "B" ∈ envAbort.symbols := by
  have hlen : ¬ ((envAbort.history "A").take HISTORY_LIMIT).length < 210 := by
    with_unfolding_all decide
  have hins : envAbort.insertOk "A" = false := rfl
  have hstep : generateSignalsFrom envAbort ["A", "B"] [] [] = (["A"], [], false) := by
    unfold generateSignalsFrom
    simp only [if_neg hlen, history210_reverse, eval210 "A", hins]
    rfl
  have hgen : generateSignals envAbort = generateSignalsFrom envAbort ["A", "B"] [] [] := rfl
  refine ⟨?_, ?_, ?_, by decide⟩ <;> rw [hgen, hstep] <;> decide

set_option maxHeartbeats 2000000 in
/-- C3 (amended): a rejected Signal-store insert propagates out of
`generateSignals` (there is no per-symbol catch around the insert), so the
pass stops at the failing symbol and the remaining symbols are not
evaluated; only the insufficient-history and conflicting-indicator
conditions are per-symbol non-fatal skips.  Whole-pass isolation exists only
in the scheduler wrapper (`updateSignals` catches the rejection). -/
theorem insertFailure_aborts (env : PassEnv) (s : String) (rest : List String)
    (evaluated : List String) (emitted : List Signal) (sig : Signal)
    (hlen : ¬ ((env.history s).take HISTORY_LIMIT).length < 210)
    (hsig : evaluateSymbol s ((env.history s).take HISTORY_LIMIT).reverse = some sig)
    (hins : env.insertOk s = false) :
    generateSignalsFrom env (s :: rest) evaluated emitted = (evaluated ++ [s], emitted, false) := by
  unfold generateSignalsFrom
  simp only [if_neg hlen, hsig, hins]
  rfl

set_option maxRecDepth 100000 in
set_option maxHeartbeats 2000000 in
/-- C3 witness: instantiating the abort lemma on the concrete environment —
with symbol `A` failing its insert, the pass returns having evaluated only
`["A"]`, leaving `"B"` unevaluated. -/
theorem insertFailure_aborts_witness :
    generateSignalsFrom envAbort ["A", "B"] [] [] = (["A"], [], false) := by
  have h := insertFailure_aborts envAbort "A" ["B"] [] [] ⟨"A", SignalType.LONG, 90, true⟩
    (by with_unfolding_all decide) (by rw [history210_reverse]; exact eval210 "A") rfl
  simpa using h

theorem trueRanges_nonneg (high low close : List ℚ)
    (hge : ∀ i < high.length, low.getD i 0 ≤ high.getD i 0) :
    ∀ t ∈ trueRanges high low close, 0 ≤ t := by
  intro t ht
  unfold trueRanges at ht
  rw [List.mem_map] at ht
  obtain ⟨i, hi, rfl⟩ := ht
  rw [List.mem_range] at hi
  split_ifs with h0
  · subst h0
    have := hge 0 hi
    linarith
  · have := hge i hi
    have h1 : (0 : ℚ) ≤ high.getD i 0 - low.getD i 0 := by linarith
    exact le_trans h1 (le_max_left _ _)

theorem atrGo_nonneg (period : ℕ) (hper : 1 ≤ period) :
    ∀ (ts : List ℚ) (prev : ℚ), 0 ≤ prev → (∀ t ∈ ts, 0 ≤ t) →
      ∀ x ∈ atrGo period prev ts, 0 ≤ x := by
  intro ts
  induction ts with
  | nil => intro prev _ _ x hx; simp [atrGo] at hx
  | cons t rest ih =>
    intro prev hprev hts x hx
    have hp : (0 : ℚ) < (period : ℚ) := by exact_mod_cast hper
    have hp1 : (0 : ℚ) ≤ (period : ℚ) - 1 := by
      have : (1 : ℚ) ≤ (period : ℚ) := by exact_mod_cast hper
      linarith
    have ht0 : (0 : ℚ) ≤ t := hts t (List.mem_cons_self t rest)
    have hv : (0 : ℚ) ≤ (prev * ((period : ℚ) - 1) + t) / (period : ℚ) := by
      apply div_nonneg _ (le_of_lt hp)
      have := mul_nonneg hprev hp1
      linarith
    rw [atrGo] at hx
    simp only [List.mem_cons] at hx
    rcases hx with rfl | hx
    · exact hv
    · exact ih _ hv (fun u hu => hts u (List.mem_cons_of_mem t hu)) x hx

/-- C7: for equal-length high/low/close arrays of length at least
`period ≥ 1` with `high[i] ≥ low[i]` everywhere, every defined `atr` output
(the entries from index `period - 1` on) is non-negative. -/
theorem atr_defined_nonneg (high low close : List ℚ) (period : ℕ)
    (hper : 1 ≤ period)
    (hlow : low.length = high.length) (hclose : close.length = high.length)
    (hlen : period ≤ high.length)
    (hge : ∀ i < high.length, low.getD i 0 ≤ high.getD i 0) :
    ∀ x ∈ (atr high low close period).drop (period - 1), 0 ≤ x := by
  intro x hx
  simp only [atr] at hx
  rw [List.drop_left' (by rw [List.length_replicate])] at hx
  have htr : ∀ t ∈ trueRanges high low close, 0 ≤ t := trueRanges_nonneg high low close hge
  have hfirst : (0 : ℚ) ≤ ((trueRanges high low close).take period).sum / (period : ℚ) := by
    apply div_nonneg
    · apply List.sum_nonneg
      intro t ht
      exact htr t (List.mem_of_mem_take ht)
    · exact_mod_cast Nat.zero_le period
  simp only [List.mem_cons] at hx
  rcases hx with rfl | hx
  · exact hfirst
  · exact atrGo_nonneg period hper _ _ hfirst
      (fun u hu => htr u (List.mem_of_mem_drop hu)) x hx

/-- C7 witness: on the concrete valid input `high=[2,3]`, `low=[1,1]`,
`close=[2,2]`, `period=2`, the defined output value `3/2` is non-negative. -/
theorem atr_defined_nonneg_witness :
    ((3 : ℚ) / 2) ∈ (atr [2, 3] [1, 1] [2, 2] 2).drop 1 ∧ (0 : ℚ) ≤ (3 : ℚ) / 2 := by
  have hmem : ((3 : ℚ) / 2) ∈ (atr [2, 3] [1, 1] [2, 2] 2).drop 1 := by
    with_unfolding_all decide
  exact ⟨hmem, atr_defined_nonneg [2, 3] [1, 1] [2, 2] 2 (by norm_num) (by simp) (by simp)
    (by simp) (by with_unfolding_all decide) _ hmem⟩

end LiquidAlpha
